import Mathlib

/-!
Verification of the bmp-js plot module (src/bmp-plot.js): a shallow
embedding of the rasterization operations over an exact-rational model of
JavaScript numbers, together with proofs about the specified properties.

Modelling conventions:
- JS numbers are modelled as exact rationals; every concrete input the
  claims evaluate is exactly representable and all its arithmetic is exact.
- A BMPJS resource is a record of width, height and a pixel map.
- A JS loop of shape `for (i = a; i < bound; i++)` visits a + 0, a + 1, ...
  and performs exactly max(0, ceil(bound - a)) iterations.
- bmp_plot_line and bmp_plot_text are instrumented: besides the buffer they
  return the trace of visited samples / drawn glyph cells, so that claims
  about the sequence of writes can be stated directly.
-/

/-- An RGB channel triple as the plot code passes it around. -/
abbrev Color : Type := ℚ × ℚ × ℚ

/-- A BMPJS resource: a pixel buffer with width, height and per-coordinate
RGB storage. Coordinates are rationals (JS numbers); the plot operations
only produce integral coordinates in the situations the claims discuss. -/
structure Resource where
  width : ℚ
  height : ℚ
  pixel : ℚ → ℚ → Color

/-- Modelled from the spec: the clamp helper used by bmp-plot.js lives in
the repository outside src/. The spec describes it as silently reducing a
value outside [lo, hi] to the nearest bound. -/
def clamp (v lo hi : ℚ) : ℚ :=
  if v < lo then lo else if hi < v then hi else v

/-- Modelled from the spec: bmp_resource_set_pixel is defined outside src/.
Per the spec it is a no-op if (x, y) is out of bounds and otherwise
overwrites the channel triple at (x, y). -/
def bmp_resource_set_pixel (res : Resource) (x y r g b : ℚ) : Resource :=
  if 0 ≤ x ∧ x < res.width ∧ 0 ≤ y ∧ y < res.height then
    { res with pixel := fun px py => if px = x ∧ py = y then (r, g, b) else res.pixel px py }
  else
    res

/-- Modelled from the spec: bmp_resource_get_pixel is defined outside src/.
Per the spec it returns the stored channel triple of an in-bounds
coordinate; the plot code only reads in-bounds atlas/source pixels in the
cases the claims evaluate. -/
def bmp_resource_get_pixel (res : Resource) (x y : ℚ) : Color :=
  res.pixel x y

/-- Number of iterations of the JS loop `for (i = 0; i < bound; i++)`:
an integer i satisfies i < bound exactly when i < ceil bound. -/
def jsIter (bound : ℚ) : ℕ := ⌈bound⌉.toNat

/-- Exact rational square root, modelling Math.sqrt. The model is exact
precisely on perfect-square rationals, which covers every input on which
the claims evaluate the square root (16 and 0). -/
def ratSqrt (q : ℚ) : ℚ :=
  (Nat.sqrt q.num.toNat : ℚ) / (Nat.sqrt q.den : ℚ)

/-- The (x2, y2) coordinates visited by the nested loops of bmp_plot_rect
(src/bmp-plot.js lines 39-40): y2 from y while y2 < h + y (outer), x2 from
x while x2 < w + x (inner). -/
def rectCoords (x y w h : ℚ) : List (ℚ × ℚ) :=
  (List.range (jsIter h)).flatMap fun (i : ℕ) =>
    (List.range (jsIter w)).map fun (j : ℕ) => (x + (j : ℚ), y + (i : ℚ))

/-- bmp_plot_rect (src/bmp-plot.js lines 29-46): per-coordinate, the write
happens only under the in-code check `resource.width > x2 and
resource.height > y2`; set_pixel itself clips the lower bounds. -/
def bmp_plot_rect (resource : Resource) (x y w h r g b : ℚ) : Resource × Bool :=
  let res := (rectCoords x y w h).foldl
    (fun rr q =>
      if rr.width > q.1 ∧ rr.height > q.2 then
        bmp_resource_set_pixel rr q.1 q.2 r g b
      else rr)
    resource
  (res, true)

/-- bmp_plot_clear (src/bmp-plot.js lines 57-68): every in-range coordinate
is written unconditionally. -/
def bmp_plot_clear (resource : Resource) (r g b : ℚ) : Resource × Bool :=
  let res := (rectCoords 0 0 resource.width resource.height).foldl
    (fun rr q => bmp_resource_set_pixel rr q.1 q.2 r g b)
    resource
  (res, true)

/-- The sampling loop of bmp_plot_line (src/bmp-plot.js lines 106-113),
instrumented: besides the buffer it returns the list of visited samples
(x, y, hit) in order, where hit records whether the in-code bounds check
passed, i.e. whether bmp_resource_set_pixel was invoked on this sample. -/
def linePlotAux (r g b ax ay : ℚ) : ℕ → ℚ → ℚ → Resource → Resource × List (ℚ × ℚ × Bool)
  | 0, _, _, res => (res, [])
  | n + 1, x, y, res =>
    let hit : Bool := decide (res.width > x ∧ res.height > y)
    let res' := if res.width > x ∧ res.height > y then bmp_resource_set_pixel res x y r g b else res
    let rest := linePlotAux r g b ax ay n (x + ax) (y + ay) res'
    (rest.1, (x, y, hit) :: rest.2)

/-- bmp_plot_line (src/bmp-plot.js lines 84-116), instrumented with the
sample trace; packaged as ((buffer, trace), js return value). The source
clamps p to [0.1, 2], computes l = sqrt(dx * dx + dy * dy) * p, steps by
(dx / l, dy / l), and iterates while the counter is below l. -/
def bmp_plot_line (resource : Resource) (x1 y1 x2 y2 r g b p : ℚ) :
    (Resource × List (ℚ × ℚ × Bool)) × Bool :=
  let p := clamp p (1 / 10) 2
  let x := x2 - x1
  let y := y2 - y1
  let l := ratSqrt (x * x + y * y) * p
  let ax := x / l
  let ay := y / l
  (linePlotAux r g b ax ay (jsIter l) x1 y1 resource, true)

/-- The effective copy dimension computed by bmp_plot_resource
(src/bmp-plot.js lines 139-147): the requested value is first clamped to
[-1, d], and only then a result of -1 defaults to the full dimension d. -/
def effDim (v d : ℚ) : ℚ :=
  let v' := clamp v (-1) d
  if v' = -1 then d else v'

/-- The (x1, y1) source coordinates visited by bmp_plot_resource's nested
loops (src/bmp-plot.js lines 149-150): x1 outer, y1 inner. -/
def copyCoords (w h : ℚ) : List (ℚ × ℚ) :=
  (List.range (jsIter w)).flatMap fun (i : ℕ) =>
    (List.range (jsIter h)).map fun (j : ℕ) => ((i : ℚ), (j : ℚ))

/-- bmp_plot_resource (src/bmp-plot.js lines 129-166). The source takes a
structuredClone of the child before the loop, so every read observes the
child as it was at call entry; the embedding's value semantics of the
`resource_c` argument model exactly that snapshot. -/
def bmp_plot_resource (resource_p resource_c : Resource) (x y w h : ℚ) : Resource × Bool :=
  let c := resource_c
  let w := effDim w c.width
  let h := effDim h c.height
  let res := (copyCoords w h).foldl
    (fun rr q =>
      if rr.width > q.1 + x ∧ rr.height > q.2 + y then
        let cc := bmp_resource_get_pixel c q.1 q.2
        bmp_resource_set_pixel rr (q.1 + x) (q.2 + y) cc.1 cc.2.1 cc.2.2
      else rr)
    resource_p
  (res, true)

/-- Per-glyph-pixel classification of bmp_plot_text (src/bmp-plot.js lines
251-278), kept literally faithful to the source: the background test reads
`br != -1 and bg != -1 and bg != -1`, checking bg twice and never bb.
Returns none when the source's continue path skips the write. -/
def glyphPixelAction (pc : Color) (fr fg fb br bg bb : ℚ) : Option Color :=
  if pc.1 = 255 ∧ pc.2.1 = 255 ∧ pc.2.2 = 255 then
    if fr ≠ -1 ∧ fg ≠ -1 ∧ fb ≠ -1 then some (fr, fg, fb) else none
  else if pc.1 = 0 ∧ pc.2.1 = 0 ∧ pc.2.2 = 0 then
    if br ≠ -1 ∧ bg ≠ -1 ∧ bg ≠ -1 then some (br, bg, bb) else none
  else some pc

/-- The (lx, ly) glyph-cell coordinates of the blit loops of bmp_plot_text
(src/bmp-plot.js lines 242-243): ly outer, lx inner, both from 0. -/
def cellCoords (fw fh : ℚ) : List (ℚ × ℚ) :=
  (List.range (jsIter fh)).flatMap fun (i : ℕ) =>
    (List.range (jsIter fw)).map fun (j : ℕ) => ((j : ℚ), (i : ℚ))

/-- One glyph blit of bmp_plot_text (src/bmp-plot.js lines 242-292): read
the atlas pixel at (lx + char_x_offset, ly), classify it, and write the
resulting color at (x_offset + lx, y_offset + ly) under the in-code
destination check. -/
def glyphBlit (res c : Resource)
    (char_x_offset x_offset y_offset fw fh fr fg fb br bg bb : ℚ) : Resource :=
  (cellCoords fw fh).foldl
    (fun rr q =>
      match glyphPixelAction (bmp_resource_get_pixel c (q.1 + char_x_offset) q.2)
          fr fg fb br bg bb with
      | none => rr
      | some col =>
        if rr.width > x_offset + q.1 ∧ rr.height > y_offset + q.2 then
          bmp_resource_set_pixel rr (x_offset + q.1) (y_offset + q.2) col.1 col.2.1 col.2.2
        else rr)
    res

/-- The character loop of bmp_plot_text (src/bmp-plot.js lines 220-295),
instrumented: besides the buffer it returns the trace of drawn glyph cells
(char code, x_offset, y_offset at blit time). Newline codes reset the
cursor, emit nothing and write nothing. -/
def bmp_plot_text_go (c : Resource) (x_offset_start fr fg fb br bg bb : ℚ) (wrap : Bool)
    (font_width font_height font_chars : ℚ) :
    List ℕ → ℚ → ℚ → Resource → Resource × List (ℕ × ℚ × ℚ)
  | [], _, _, res => (res, [])
  | char_code :: rest, x_offset, y_offset, res =>
    if char_code = 10 ∨ char_code = 13 then
      bmp_plot_text_go c x_offset_start fr fg fb br bg bb wrap font_width font_height
        font_chars rest x_offset_start (y_offset + font_height) res
    else
      let char_x_offset :=
        if char_code < 0x20 ∨ 0x7E < char_code then font_width * (font_chars - 1)
        else ((char_code : ℚ) - 32) * font_width
      let wrapped : Bool := wrap && decide (x_offset + font_width > res.width)
      let x_offset := if wrapped then x_offset_start else x_offset
      let y_offset := if wrapped then y_offset + font_height else y_offset
      let res' := glyphBlit res c char_x_offset x_offset y_offset font_width font_height
        fr fg fb br bg bb
      let rest' := bmp_plot_text_go c x_offset_start fr fg fb br bg bb wrap font_width
        font_height font_chars rest (x_offset + font_width) y_offset res'
      (rest'.1, (char_code, x_offset, y_offset) :: rest'.2)

/-- bmp_plot_text (src/bmp-plot.js lines 186-298), packaged as
((buffer, glyph trace), js return value). The text argument is the list of
character codes (JS charCodeAt values). Glyph metrics come from the atlas:
font_width = atlas.width / 96, font_height = atlas.height, and font_chars =
atlas.width / font_width, exactly as in the source. -/
def bmp_plot_text (resource_p resource_c : Resource) (x y : ℚ) (text : List ℕ) (wrap : Bool)
    (fr fg fb br bg bb : ℚ) : (Resource × List (ℕ × ℚ × ℚ)) × Bool :=
  let font_width := resource_c.width / 96
  let font_height := resource_c.height
  let font_chars := resource_c.width / font_width
  (bmp_plot_text_go resource_c x fr fg fb br bg bb wrap font_width font_height font_chars
    text x y resource_p, true)

/-- The scale-and-connect loop shared verbatim by the shape outliners
(e.g. src/bmp-plot.js lines 361-369): consecutive point-table entries are
mapped by px / 512 * w + x (resp. py / 512 * h + y) into destination space
and joined with bmp_plot_line. -/
def plotPoints (res : Resource) (points : List (ℚ × ℚ)) (x y w h r g b p : ℚ) : Resource :=
  (points.zip points.tail).foldl
    (fun rr seg =>
      (bmp_plot_line rr (seg.1.1 / 512 * w + x) (seg.1.2 / 512 * h + y)
        (seg.2.1 / 512 * w + x) (seg.2.2 / 512 * h + y) r g b p).1.1)
    res

/-- The 33-entry circle point table (src/bmp-plot.js lines 325-359). -/
def circlePoints : List (ℚ × ℚ) :=
  [(247, 1), (312, 8), (360, 23), (403, 47), (439, 78), (469, 114), (490, 153),
   (507, 205), (511, 257), (505, 312), (490, 360), (466, 403), (435, 439),
   (399, 469), (360, 490), (308, 507), (256, 511), (201, 505), (153, 490),
   (110, 466), (74, 435), (44, 399), (23, 360), (6, 308), (2, 256), (8, 201),
   (23, 153), (47, 110), (78, 74), (114, 44), (153, 23), (205, 6), (247, 1)]

/-- bmp_plot_circle (src/bmp-plot.js lines 314-372). -/
def bmp_plot_circle (resource : Resource) (x y w h r g b p : ℚ) : Resource × Bool :=
  (plotPoints resource circlePoints x y w h r g b p, true)

/-- The arrow-up point table (src/bmp-plot.js lines 399-408). -/
def arrowUpPoints : List (ℚ × ℚ) :=
  [(256, 1), (512, 256), (384, 256), (384, 512), (128, 512), (128, 256), (1, 256), (256, 1)]

/-- bmp_plot_arrow_up (src/bmp-plot.js lines 388-421). -/
def bmp_plot_arrow_up (resource : Resource) (x y w h r g b p : ℚ) : Resource × Bool :=
  (plotPoints resource arrowUpPoints x y w h r g b p, true)

/-- The arrow-down point table (src/bmp-plot.js lines 448-457). -/
def arrowDownPoints : List (ℚ × ℚ) :=
  [(128, 0), (384, 0), (384, 256), (512, 256), (256, 512), (0, 256), (128, 256), (128, 0)]

/-- bmp_plot_arrow_down (src/bmp-plot.js lines 437-470). -/
def bmp_plot_arrow_down (resource : Resource) (x y w h r g b p : ℚ) : Resource × Bool :=
  (plotPoints resource arrowDownPoints x y w h r g b p, true)

/-- The arrow-left point table (src/bmp-plot.js lines 497-506). -/
def arrowLeftPoints : List (ℚ × ℚ) :=
  [(0, 256), (256, 0), (256, 128), (512, 128), (512, 384), (256, 384), (256, 512), (0, 256)]

/-- bmp_plot_arrow_left (src/bmp-plot.js lines 486-519). -/
def bmp_plot_arrow_left (resource : Resource) (x y w h r g b p : ℚ) : Resource × Bool :=
  (plotPoints resource arrowLeftPoints x y w h r g b p, true)

/-- The arrow-right point table (src/bmp-plot.js lines 546-555). -/
def arrowRightPoints : List (ℚ × ℚ) :=
  [(0, 128), (256, 128), (256, 0), (512, 256), (256, 512), (256, 384), (0, 384), (0, 128)]

/-- bmp_plot_arrow_right (src/bmp-plot.js lines 535-568). -/
def bmp_plot_arrow_right (resource : Resource) (x y w h r g b p : ℚ) : Resource × Bool :=
  (plotPoints resource arrowRightPoints x y w h r g b p, true)

/-- The triangle point table (src/bmp-plot.js lines 595-600). -/
def trianglePoints : List (ℚ × ℚ) :=
  [(256, 0), (512, 512), (0, 512), (256, 0)]

/-- bmp_plot_triangle (src/bmp-plot.js lines 584-613). -/
def bmp_plot_triangle (resource : Resource) (x y w h r g b p : ℚ) : Resource × Bool :=
  (plotPoints resource trianglePoints x y w h r g b p, true)

/-- Modelled from the spec: the effective copy dimension as the claim
states it, for comparison with effDim. Per the claim, a caller-passed -1
defaults to the source's full dimension, and any other requested value is
clamped into [-1, source_dimension] and then used as the loop bound. -/
def resourceDimSpec (v d : ℚ) : ℚ :=
  if v = -1 then d else clamp v (-1) d

/-- A 10 x 10 buffer cleared to black, as in the spec's rectangle test. -/
def res10 : Resource := ⟨10, 10, fun _ _ => (0, 0, 0)⟩

/-- A 4 x 4 parent buffer holding (1, 1, 1) everywhere. -/
def parent4 : Resource := ⟨4, 4, fun _ _ => (1, 1, 1)⟩

/-- A 4 x 4 child buffer holding (9, 9, 9) everywhere. -/
def child4 : Resource := ⟨4, 4, fun _ _ => (9, 9, 9)⟩

/-- A 4 x 4 buffer whose pixel at (x, y) is (x, y, 0), used to watch which
source coordinate each copied value came from. -/
def grid4 : Resource := ⟨4, 4, fun px py => (px, py, 0)⟩

/-- A 3 x 3 parent buffer holding (1, 1, 1) everywhere. -/
def parent3 : Resource := ⟨3, 3, fun _ _ => (1, 1, 1)⟩

/-- A 3 x 3 child buffer holding (9, 9, 9) everywhere. -/
def child3 : Resource := ⟨3, 3, fun _ _ => (9, 9, 9)⟩

/-- A 96 x 1 glyph atlas whose pixels are all pure black, so every glyph
cell pixel takes the background classification path. -/
def atlasBlack : Resource := ⟨96, 1, fun _ _ => (0, 0, 0)⟩

/-- A 10 x 10 parent buffer holding (1, 2, 3) everywhere. -/
def parent10 : Resource := ⟨10, 10, fun _ _ => (1, 2, 3)⟩

/-- A 5-wide, 10-tall destination, narrower than two glyph cells of
atlas288. -/
def narrow5 : Resource := ⟨5, 10, fun _ _ => (0, 0, 0)⟩

/-- A 288 x 2 all-black glyph atlas: font_width 3, font_height 2. -/
def atlas288 : Resource := ⟨288, 2, fun _ _ => (0, 0, 0)⟩

/-! ## Helper lemmas -/

theorem set_pixel_width (res : Resource) (x y r g b : ℚ) :
    (bmp_resource_set_pixel res x y r g b).width = res.width := by
  unfold bmp_resource_set_pixel; split <;> rfl

theorem set_pixel_height (res : Resource) (x y r g b : ℚ) :
    (bmp_resource_set_pixel res x y r g b).height = res.height := by
  unfold bmp_resource_set_pixel; split <;> rfl

/-- Pixel-level characterization of a guarded write loop: folding
single-pixel writes over a coordinate list, where the written value is a
function of the target coordinate alone, paints V at every listed
in-bounds coordinate and nothing else. -/
theorem writeFold_pixel (V : ℚ → ℚ → Color) :
    ∀ (L : List (ℚ × ℚ)) (res : Resource) (px py : ℚ),
    ((L.foldl (fun rr q =>
        if rr.width > q.1 ∧ rr.height > q.2 then
          bmp_resource_set_pixel rr q.1 q.2 (V q.1 q.2).1 (V q.1 q.2).2.1 (V q.1 q.2).2.2
        else rr) res).pixel px py)
    = if (px, py) ∈ L ∧ 0 ≤ px ∧ px < res.width ∧ 0 ≤ py ∧ py < res.height
      then V px py else res.pixel px py := by
  intro L
  induction L with
  | nil => intro res px py; simp
  | cons q L ih =>
    intro res px py
    rw [List.foldl_cons, ih]
    have hw : (if res.width > q.1 ∧ res.height > q.2 then
        bmp_resource_set_pixel res q.1 q.2 (V q.1 q.2).1 (V q.1 q.2).2.1 (V q.1 q.2).2.2
        else res).width = res.width := by
      split
      · rw [set_pixel_width]
      · rfl
    have hh : (if res.width > q.1 ∧ res.height > q.2 then
        bmp_resource_set_pixel res q.1 q.2 (V q.1 q.2).1 (V q.1 q.2).2.1 (V q.1 q.2).2.2
        else res).height = res.height := by
      split
      · rw [set_pixel_height]
      · rfl
    have hpix : (if res.width > q.1 ∧ res.height > q.2 then
        bmp_resource_set_pixel res q.1 q.2 (V q.1 q.2).1 (V q.1 q.2).2.1 (V q.1 q.2).2.2
        else res).pixel px py
        = if (px, py) = q ∧ 0 ≤ px ∧ px < res.width ∧ 0 ≤ py ∧ py < res.height
          then V px py else res.pixel px py := by
      unfold bmp_resource_set_pixel
      by_cases hq : (px, py) = q
      · obtain ⟨h1, h2⟩ : px = q.1 ∧ py = q.2 := by
          constructor <;> (rw [← hq])
        subst h1; subst h2
        split_ifs with hA hB hC hC <;> simp_all
      · have hne : ¬(px = q.1 ∧ py = q.2) := by
          intro ⟨h1, h2⟩; exact hq (Prod.ext h1 h2)
        split_ifs with hA hB hC hC <;> simp_all
    rw [hw, hh, hpix]
    by_cases hmem : (px, py) ∈ q :: L
    · rcases List.mem_cons.mp hmem with hq | hL
      · by_cases hb : 0 ≤ px ∧ px < res.width ∧ 0 ≤ py ∧ py < res.height
        · by_cases hL2 : (px, py) ∈ L <;> simp_all
        · simp_all
      · by_cases hb : 0 ≤ px ∧ px < res.width ∧ 0 ≤ py ∧ py < res.height <;> simp_all
    · have h1 : ¬(px, py) ∈ L := fun h => hmem (List.mem_cons_of_mem _ h)
      have h2 : ¬(px, py) = q := fun h => hmem (h ▸ List.mem_cons_self _ _)
      simp_all

/-- Closed form of the line sampling loop trace: starting at (x, y), the
i-th visited sample is (x + i * ax, y + i * ay). -/
theorem linePlotAux_trace (r g b ax ay : ℚ) :
    ∀ (n : ℕ) (x y : ℚ) (res : Resource),
    (linePlotAux r g b ax ay n x y res).2.map (fun s => (s.1, s.2.1))
      = (List.range n).map (fun i : ℕ => (x + (i : ℚ) * ax, y + (i : ℚ) * ay)) := by
  intro n
  induction n with
  | zero => intro x y res; simp [linePlotAux]
  | succ n ih =>
    intro x y res
    simp only [linePlotAux, List.map_cons]
    rw [ih, List.range_succ_eq_map, List.map_cons, List.map_map]
    refine List.cons_eq_cons.mpr ⟨by norm_num, ?_⟩
    apply List.map_congr_left
    intro i _
    simp only [Function.comp_apply]
    push_cast
    refine Prod.ext ?_ ?_ <;> dsimp <;> ring

theorem clamp_clamp_p (p : ℚ) : clamp (clamp p (1 / 10) 2) (1 / 10) 2 = clamp p (1 / 10) 2 := by
  unfold clamp
  split_ifs <;> first | rfl | linarith

theorem effDim_neg_one (d : ℚ) : effDim (-1) d = d := by
  unfold effDim clamp
  split_ifs with h1 h2 h3 <;> first | rfl | linarith | simp_all

/-- Folding writes that copy a buffer's own entry-time pixel values back
onto it leaves the pixel map extensionally unchanged. -/
theorem selfwrite_fold (a : Resource) :
    ∀ (L : List (ℚ × ℚ)) (rr : Resource), (∀ u v, rr.pixel u v = a.pixel u v) →
    ∀ px py,
    ((L.foldl (fun r2 q =>
        if r2.width > q.1 ∧ r2.height > q.2 then
          bmp_resource_set_pixel r2 q.1 q.2 (a.pixel q.1 q.2).1 (a.pixel q.1 q.2).2.1
            (a.pixel q.1 q.2).2.2
        else r2) rr).pixel px py) = a.pixel px py := by
  intro L
  induction L with
  | nil => intro rr h px py; simpa using h px py
  | cons q L ih =>
    intro rr h px py
    rw [List.foldl_cons]
    apply ih
    intro u v
    unfold bmp_resource_set_pixel
    split_ifs with hA hB hC hC <;> try exact h u v
    all_goals
      (by_cases huv : u = q.1 ∧ v = q.2
       · obtain ⟨h1, h2⟩ := huv
         subst h1; subst h2
         simp
       · simp only [huv, if_neg huv]
         exact h u v)

/-- Membership in the rectangle coordinate list, for integral data. -/
theorem mem_rectCoords (x y px py : ℤ) (w h : ℕ) :
    (((px : ℚ), (py : ℚ)) ∈ rectCoords (x : ℚ) (y : ℚ) (w : ℚ) (h : ℚ))
      ↔ (x ≤ px ∧ px < x + w ∧ y ≤ py ∧ py < y + h) := by
  have hw : jsIter ((w : ℕ) : ℚ) = w := by simp [jsIter]
  have hh : jsIter ((h : ℕ) : ℚ) = h := by simp [jsIter]
  unfold rectCoords
  rw [hw, hh]
  simp only [List.mem_flatMap, List.mem_map, List.mem_range, Prod.mk.injEq]
  constructor
  · rintro ⟨i, hi, j, hj, hx, hy⟩
    have hxz : (x : ℚ) + (j : ℚ) = ((x + (j : ℤ) : ℤ) : ℚ) := by push_cast; ring
    have hyz : (y : ℚ) + (i : ℚ) = ((y + (i : ℤ) : ℤ) : ℚ) := by push_cast; ring
    rw [hxz] at hx
    rw [hyz] at hy
    have hx' : x + (j : ℤ) = px := by exact_mod_cast hx
    have hy' : y + (i : ℤ) = py := by exact_mod_cast hy
    omega
  · rintro ⟨h1, h2, h3, h4⟩
    refine ⟨(py - y).toNat, by omega, (px - x).toNat, by omega, ?_, ?_⟩
    · have hc : ((px - x).toNat : ℤ) = px - x := Int.toNat_of_nonneg (by omega)
      have : ((px - x).toNat : ℚ) = (px : ℚ) - (x : ℚ) := by exact_mod_cast hc
      rw [this]; ring
    · have hc : ((py - y).toNat : ℤ) = py - y := Int.toNat_of_nonneg (by omega)
      have : ((py - y).toNat : ℚ) = (py : ℚ) - (y : ℚ) := by exact_mod_cast hc
      rw [this]; ring

theorem guarded_set_width (res : Resource) (x y r g b : ℚ) (c : Prop) [Decidable c] :
    (if c then bmp_resource_set_pixel res x y r g b else res).width = res.width := by
  split
  · rw [set_pixel_width]
  · rfl

theorem guarded_set_height (res : Resource) (x y r g b : ℚ) (c : Prop) [Decidable c] :
    (if c then bmp_resource_set_pixel res x y r g b else res).height = res.height := by
  split
  · rw [set_pixel_height]
  · rfl

/-- A glyph blit never changes the destination buffer's width. -/
theorem glyphBlit_width (res c : Resource) (cxo xoff yoff fw fh fr fg fb br bg bb : ℚ) :
    (glyphBlit res c cxo xoff yoff fw fh fr fg fb br bg bb).width = res.width := by
  unfold glyphBlit
  generalize cellCoords fw fh = L
  induction L generalizing res with
  | nil => rfl
  | cons q L ih =>
    rw [List.foldl_cons]
    have hstep : ∀ rr : Resource,
        ((fun (rr : Resource) (q : ℚ × ℚ) =>
          match glyphPixelAction (bmp_resource_get_pixel c (q.1 + cxo) q.2) fr fg fb br bg bb with
          | none => rr
          | some col =>
            if rr.width > xoff + q.1 ∧ rr.height > yoff + q.2 then
              bmp_resource_set_pixel rr (xoff + q.1) (yoff + q.2) col.1 col.2.1 col.2.2
            else rr) rr q).width = rr.width := by
      intro rr
      cases hact : glyphPixelAction (bmp_resource_get_pixel c (q.1 + cxo) q.2) fr fg fb br bg bb with
      | none => simp [hact]
      | some col => simp [hact, guarded_set_width]
    rw [ih, hstep]

/-- Rows of the glyph trace are strictly increasing whenever word wrap is
on, the anchor is at a non-negative x, the glyph cell has positive
dimensions, and the destination is narrower than two glyph cells. The
invariant carried through the character loop: the cursor either sits at
the anchor x or at least one glyph cell to its right. -/
theorem text_rows_aux (c : Resource) (ax fr fg fb br bg bb fw fh fchars : ℚ)
    (hax : 0 ≤ ax) (hfw : 0 < fw) (hfh : 0 < fh) :
    ∀ (codes : List ℕ) (xo yo : ℚ) (res : Resource),
      res.width < 2 * fw → (xo = ax ∨ fw ≤ xo) →
      (((bmp_plot_text_go c ax fr fg fb br bg bb true fw fh fchars codes xo yo res).2.map
          (fun gr => gr.2.2)).Pairwise (· < ·)
        ∧ (∀ v ∈ (bmp_plot_text_go c ax fr fg fb br bg bb true fw fh fchars codes xo yo
            res).2.map (fun gr => gr.2.2), yo ≤ v)
        ∧ (fw ≤ xo → ∀ v ∈ (bmp_plot_text_go c ax fr fg fb br bg bb true fw fh fchars codes xo yo
            res).2.map (fun gr => gr.2.2), yo + fh ≤ v)) := by
  intro codes
  induction codes with
  | nil =>
    intro xo yo res hres hinv
    simp [bmp_plot_text_go]
  | cons cc rest ih =>
    intro xo yo res hres hinv
    by_cases hnl : cc = 10 ∨ cc = 13
    · have heq : bmp_plot_text_go c ax fr fg fb br bg bb true fw fh fchars (cc :: rest) xo yo res
          = bmp_plot_text_go c ax fr fg fb br bg bb true fw fh fchars rest ax (yo + fh) res := by
        simp [bmp_plot_text_go, hnl]
      rw [heq]
      obtain ⟨p1, p2, p3⟩ := ih ax (yo + fh) res hres (Or.inl rfl)
      exact ⟨p1, fun v hv => by have := p2 v hv; linarith, fun _ v hv => p2 v hv⟩
    · by_cases hw : res.width < xo + fw
      · have hwrap : (true && decide (xo + fw > res.width)) = true := by
          simp [hw]
        have heq : bmp_plot_text_go c ax fr fg fb br bg bb true fw fh fchars (cc :: rest) xo yo res
            = ((bmp_plot_text_go c ax fr fg fb br bg bb true fw fh fchars rest (ax + fw) (yo + fh)
                (glyphBlit res c
                  (if cc < 0x20 ∨ 0x7E < cc then fw * (fchars - 1) else ((cc : ℚ) - 32) * fw)
                  ax (yo + fh) fw fh fr fg fb br bg bb)).1,
              (cc, ax, yo + fh)
                :: (bmp_plot_text_go c ax fr fg fb br bg bb true fw fh fchars rest (ax + fw)
                  (yo + fh) (glyphBlit res c
                    (if cc < 0x20 ∨ 0x7E < cc then fw * (fchars - 1) else ((cc : ℚ) - 32) * fw)
                    ax (yo + fh) fw fh fr fg fb br bg bb)).2) := by
          simp only [bmp_plot_text_go, if_neg hnl, hwrap, if_pos rfl, if_true]
        rw [heq]
        set res' := glyphBlit res c
            (if cc < 0x20 ∨ 0x7E < cc then fw * (fchars - 1) else ((cc : ℚ) - 32) * fw)
            ax (yo + fh) fw fh fr fg fb br bg bb with hresdef
        have hres' : res'.width < 2 * fw := by
          rw [hresdef, glyphBlit_width]
          exact hres
        obtain ⟨p1, p2, p3⟩ := ih (ax + fw) (yo + fh) res' hres' (Or.inr (by linarith))
        have p3' := p3 (by linarith)
        refine ⟨?_, ?_, ?_⟩
        · rw [List.map_cons]
          dsimp only
          refine List.pairwise_cons.mpr ⟨fun v hv => ?_, p1⟩
          have := p3' v hv
          linarith
        · rw [List.map_cons]
          dsimp only
          intro v hv
          rcases List.mem_cons.mp hv with hv1 | hv2
          · rw [hv1]; linarith
          · have := p2 v hv2; linarith
        · intro _
          rw [List.map_cons]
          dsimp only
          intro v hv
          rcases List.mem_cons.mp hv with hv1 | hv2
          · rw [hv1]
          · have := p3' v hv2; linarith
      · have hxo : xo = ax := by
          rcases hinv with h | h
          · exact h
          · exact absurd (by linarith : res.width < xo + fw) hw
        have hwrap : (true && decide (xo + fw > res.width)) = false := by
          simp [hw]
        have heq : bmp_plot_text_go c ax fr fg fb br bg bb true fw fh fchars (cc :: rest) xo yo res
            = ((bmp_plot_text_go c ax fr fg fb br bg bb true fw fh fchars rest (xo + fw) yo
                (glyphBlit res c
                  (if cc < 0x20 ∨ 0x7E < cc then fw * (fchars - 1) else ((cc : ℚ) - 32) * fw)
                  xo yo fw fh fr fg fb br bg bb)).1,
              (cc, xo, yo)
                :: (bmp_plot_text_go c ax fr fg fb br bg bb true fw fh fchars rest (xo + fw)
                  yo (glyphBlit res c
                    (if cc < 0x20 ∨ 0x7E < cc then fw * (fchars - 1) else ((cc : ℚ) - 32) * fw)
                    xo yo fw fh fr fg fb br bg bb)).2) := by
          simp [bmp_plot_text_go, if_neg hnl, hwrap]
        rw [heq]
        set res' := glyphBlit res c
            (if cc < 0x20 ∨ 0x7E < cc then fw * (fchars - 1) else ((cc : ℚ) - 32) * fw)
            xo yo fw fh fr fg fb br bg bb with hresdef
        have hres' : res'.width < 2 * fw := by
          rw [hresdef, glyphBlit_width]
          exact hres
        have hxo0 : 0 ≤ xo := hxo ▸ hax
        obtain ⟨p1, p2, p3⟩ := ih (xo + fw) yo res' hres' (Or.inr (by linarith))
        have p3' := p3 (by linarith)
        refine ⟨?_, ?_, ?_⟩
        · rw [List.map_cons]
          dsimp only
          refine List.pairwise_cons.mpr ⟨fun v hv => ?_, p1⟩
          have := p3' v hv
          linarith
        · rw [List.map_cons]
          dsimp only
          intro v hv
          rcases List.mem_cons.mp hv with hv1 | hv2
          · rw [hv1]
          · exact p2 v hv2
        · intro hcontra
          exact absurd (by linarith : res.width < xo + fw) hw

/-! ## Claim theorems -/

/-- C1: glyph-cell pixel classification in bmp_plot_text. The claim's
all-or-nothing background rule is violated by the source: the background
test checks bg twice and never bb, so with the black atlas pixel of an
all-black font and (br, bg, bb) = (7, 7, -1) the glyph pixel is drawn as
(7, 7, -1) — a negative blue channel is written — where the claim requires
the pixel to be skipped and the destination left untouched at (1, 2, 3).
This evaluates the embedded code at that failing input. -/
theorem C1_text_pixel_classification_bug :
    (bmp_plot_text parent10 atlasBlack 0 0 [65] false 255 255 255 7 7 (-1)).1.1.pixel 0 0
        = (7, 7, -1)
    ∧ parent10.pixel 0 0 = (1, 2, 3)
    ∧ glyphPixelAction (0, 0, 0) 255 255 255 7 7 (-1) = some (7, 7, -1) := by
  refine ⟨?_, rfl, by norm_num [glyphPixelAction]⟩
  have h1 : jsIter 1 = 1 := by simp [jsIter]
  have hr : List.range 1 = [0] := rfl
  norm_num [bmp_plot_text, bmp_plot_text_go, glyphBlit, cellCoords, glyphPixelAction,
    bmp_resource_get_pixel, bmp_resource_set_pixel, h1, hr, parent10, atlasBlack]

/-- C2: bmp_plot_line clamps p into [0.1, 2] before any use, takes exactly
ceil(l) samples for l = sqrt(dx^2 + dy^2) * p, each advancing by dx / l in
x and dy / l in y; the line from (0, 0) to (4, 0) with p = 1 on a buffer
at least 4 wide and 1 tall performs exactly 4 point writes, at
(0,0), (1,0), (2,0), (3,0): x strictly increasing (hence non-decreasing),
y constant, every x at or before 4, and every sample passes the bounds
check (the true flag records the bmp_resource_set_pixel invocation). -/
theorem C2_line_sampling (res : Resource) (x1 y1 x2 y2 r g b p : ℚ)
    (h4 : 4 ≤ res.width) (h1 : 1 ≤ res.height) :
    (bmp_plot_line res x1 y1 x2 y2 r g b p
        = bmp_plot_line res x1 y1 x2 y2 r g b (clamp p (1 / 10) 2))
    ∧ ((bmp_plot_line res x1 y1 x2 y2 r g b p).1.2.map (fun s => (s.1, s.2.1))
        = (List.range (jsIter (ratSqrt ((x2 - x1) * (x2 - x1) + (y2 - y1) * (y2 - y1))
              * clamp p (1 / 10) 2))).map
            (fun i : ℕ =>
              (x1 + (i : ℚ) * ((x2 - x1) / (ratSqrt ((x2 - x1) * (x2 - x1)
                  + (y2 - y1) * (y2 - y1)) * clamp p (1 / 10) 2)),
               y1 + (i : ℚ) * ((y2 - y1) / (ratSqrt ((x2 - x1) * (x2 - x1)
                  + (y2 - y1) * (y2 - y1)) * clamp p (1 / 10) 2)))))
    ∧ ((bmp_plot_line res 0 0 4 0 r g b 1).1.2
        = [(0, 0, true), (1, 0, true), (2, 0, true), (3, 0, true)]) := by
  refine ⟨?_, ?_, ?_⟩
  · simp only [bmp_plot_line, clamp_clamp_p]
  · simp only [bmp_plot_line]
    exact linePlotAux_trace r g b _ _ _ x1 y1 res
  · have hs : Nat.sqrt 16 = 4 := by
      have h16 : (16 : ℕ) = 4 * 4 := by norm_num
      rw [h16, Nat.sqrt_eq]
    have hq : ratSqrt 16 = 4 := by simp [ratSqrt, hs]
    have hc : clamp 1 (1 / 10) 2 = 1 := by norm_num [clamp]
    have hj : jsIter 4 = 4 := by simp [jsIter]
    have hw0 : res.width > 0 := by linarith
    have hw1 : res.width > 1 := by linarith
    have hw2 : res.width > 2 := by linarith
    have hw3 : res.width > 3 := by linarith
    have hh0 : res.height > 0 := by linarith
    norm_num [bmp_plot_line, hq, hc, hj, linePlotAux, guarded_set_width, guarded_set_height,
      set_pixel_width, set_pixel_height, hw0, hw1, hw2, hw3, hh0]

/-- C2 witness: the concrete trace of the (0,0)-(4,0), p = 1 line on the
10 x 10 buffer, obtained from C2_line_sampling. -/
theorem C2_line_sampling_witness :
    (bmp_plot_line res10 0 0 4 0 255 255 255 1).1.2
      = [(0, 0, true), (1, 0, true), (2, 0, true), (3, 0, true)] :=
  (C2_line_sampling res10 0 0 4 0 255 255 255 1 (by norm_num [res10])
    (by norm_num [res10])).2.2

/-- C3: a zero-length segment (x2 = x1 and y2 = y1, so l = 0) makes the
sampling loop run zero times: bmp_resource_set_pixel is never invoked (the
trace is empty and the buffer is returned unchanged, so no NaN or Infinity
from the division by l = 0 can reach it), and the call returns true. -/
theorem C3_line_zero_length (res : Resource) (x1 y1 r g b p : ℚ) :
    bmp_plot_line res x1 y1 x1 y1 r g b p = ((res, []), true) := by
  have hs : (x1 - x1) * (x1 - x1) + (y1 - y1) * (y1 - y1) = 0 := by ring
  have hr : ratSqrt 0 = 0 := by simp [ratSqrt]
  have hj : jsIter 0 = 0 := by simp [jsIter]
  simp only [bmp_plot_line, hs, hr, zero_mul, hj, linePlotAux]

/-- C4: bmp_plot_rect fills exactly the in-bounds pixels of the rectangle
from (x, y) extending w by h, skipping per-pixel anything outside the
destination; concretely, on the 10 x 10 black buffer, the (2, 2, 3, 3)
rectangle colors exactly the nine integer pixels with 2 <= px < 5 and
2 <= py < 5 and leaves every other pixel black. -/
theorem C4_rect_fill (a : Resource) (x y px py : ℤ) (w h : ℕ) (r g b : ℚ) :
    ((bmp_plot_rect a (x : ℚ) (y : ℚ) (w : ℚ) (h : ℚ) r g b).1.pixel (px : ℚ) (py : ℚ)
      = if x ≤ px ∧ px < x + w ∧ y ≤ py ∧ py < y + h
            ∧ 0 ≤ px ∧ (px : ℚ) < a.width ∧ 0 ≤ py ∧ (py : ℚ) < a.height
        then (r, g, b) else a.pixel (px : ℚ) (py : ℚ))
    ∧ ((bmp_plot_rect res10 2 2 3 3 10 20 30).1.pixel (px : ℚ) (py : ℚ)
      = if 2 ≤ px ∧ px < 5 ∧ 2 ≤ py ∧ py < 5
        then ((10 : ℚ), (20 : ℚ), (30 : ℚ)) else (0, 0, 0)) := by
  constructor
  · have hf : (bmp_plot_rect a (x : ℚ) (y : ℚ) (w : ℚ) (h : ℚ) r g b).1.pixel (px : ℚ) (py : ℚ)
        = if ((px : ℚ), (py : ℚ)) ∈ rectCoords (x : ℚ) (y : ℚ) (w : ℚ) (h : ℚ)
              ∧ 0 ≤ (px : ℚ) ∧ (px : ℚ) < a.width ∧ 0 ≤ (py : ℚ) ∧ (py : ℚ) < a.height
          then (r, g, b) else a.pixel (px : ℚ) (py : ℚ) :=
      writeFold_pixel (fun _ _ => (r, g, b)) (rectCoords (x : ℚ) (y : ℚ) (w : ℚ) (h : ℚ))
        a (px : ℚ) (py : ℚ)
    rw [hf]
    refine if_congr ?_ rfl rfl
    rw [mem_rectCoords]
    constructor
    · rintro ⟨⟨a1, a2, a3, a4⟩, b1, b2, b3, b4⟩
      exact ⟨a1, a2, a3, a4, by exact_mod_cast b1, b2, by exact_mod_cast b3, b4⟩
    · rintro ⟨a1, a2, a3, a4, b1, b2, b3, b4⟩
      exact ⟨⟨a1, a2, a3, a4⟩, by exact_mod_cast b1, b2, by exact_mod_cast b3, b4⟩
  · have hf : (bmp_plot_rect res10 2 2 3 3 10 20 30).1.pixel (px : ℚ) (py : ℚ)
        = if ((px : ℚ), (py : ℚ)) ∈ rectCoords 2 2 3 3
              ∧ 0 ≤ (px : ℚ) ∧ (px : ℚ) < res10.width ∧ 0 ≤ (py : ℚ) ∧ (py : ℚ) < res10.height
          then ((10 : ℚ), (20 : ℚ), (30 : ℚ)) else res10.pixel (px : ℚ) (py : ℚ) :=
      writeFold_pixel (fun _ _ => ((10 : ℚ), (20 : ℚ), (30 : ℚ))) (rectCoords 2 2 3 3)
        res10 (px : ℚ) (py : ℚ)
    rw [hf]
    have hmem : (((px : ℚ), (py : ℚ)) ∈ rectCoords 2 2 3 3)
        ↔ ((2 : ℤ) ≤ px ∧ px < 2 + (3 : ℕ) ∧ (2 : ℤ) ≤ py ∧ py < 2 + (3 : ℕ)) := by
      have h2 : ((2 : ℤ) : ℚ) = (2 : ℚ) := by norm_num
      have h3 : ((3 : ℕ) : ℚ) = (3 : ℚ) := by norm_num
      rw [← h2, ← h3, mem_rectCoords]
    refine if_congr ?_ rfl rfl
    rw [hmem]
    show ((2 : ℤ) ≤ px ∧ px < 2 + (3 : ℕ) ∧ (2 : ℤ) ≤ py ∧ py < 2 + (3 : ℕ))
        ∧ 0 ≤ (px : ℚ) ∧ (px : ℚ) < res10.width ∧ 0 ≤ (py : ℚ) ∧ (py : ℚ) < res10.height
      ↔ (2 ≤ px ∧ px < 5 ∧ 2 ≤ py ∧ py < 5)
    have hw : res10.width = 10 := rfl
    have hh : res10.height = 10 := rfl
    rw [hw, hh]
    constructor
    · rintro ⟨⟨a1, a2, a3, a4⟩, -⟩
      refine ⟨a1, by omega, a3, by omega⟩
    · rintro ⟨a1, a2, a3, a4⟩
      refine ⟨⟨a1, by omega, a3, by omega⟩, ?_, ?_, ?_, ?_⟩
      · exact_mod_cast (by omega : (0 : ℤ) ≤ px)
      · exact_mod_cast (by omega : px < (10 : ℤ))
      · exact_mod_cast (by omega : (0 : ℤ) ≤ py)
      · exact_mod_cast (by omega : py < (10 : ℤ))

/-- C5 counterexample: the claim says a requested width other than -1 is
clamped into [-1, source_width] and then bounds the copy loop; for the
request w = -5 on a 3-wide child, that claimed effective width is -1 (an
empty loop, copying nothing), but the source's effective width is 3 (the
clamp result -1 triggers the full-width default), and the copy visibly
overwrites the parent pixel at (0, 0). -/
theorem C5_resource_dim_counterexample :
    resourceDimSpec (-5) 3 = -1
    ∧ effDim (-5) 3 = 3
    ∧ (bmp_plot_resource parent3 child3 0 0 (-5) (-1)).1.pixel 0 0 = (9, 9, 9)
    ∧ ¬(bmp_plot_resource parent3 child3 0 0 (-5) (-1)).1.pixel 0 0 = parent3.pixel 0 0 := by
  have h3 : jsIter 3 = 3 := by simp [jsIter]
  have hr : List.range 3 = [0, 1, 2] := rfl
  have hpix : (bmp_plot_resource parent3 child3 0 0 (-5) (-1)).1.pixel 0 0 = (9, 9, 9) := by
    norm_num [bmp_plot_resource, effDim, clamp, copyCoords, h3, hr,
      bmp_resource_get_pixel, bmp_resource_set_pixel, parent3, child3]
  refine ⟨by norm_num [resourceDimSpec, clamp], by norm_num [effDim, clamp], hpix, ?_⟩
  rw [hpix]
  norm_num [parent3]

/-- C5 amended: in bmp_plot_resource, a requested dimension of -1 or below
defaults to the source's full corresponding dimension (values below -1
first clamp to -1, which then triggers the default); any other requested
value is capped at the source dimension, silently reduced rather than
rejected, before the copy loop runs. -/
theorem C5_resource_dim_amended (v d : ℚ) (hd : -1 ≤ d) :
    effDim v d = if v ≤ -1 then d else min v d := by
  simp only [effDim, clamp]
  by_cases h1 : v < -1
  · rw [if_pos h1, if_pos rfl, if_pos (by linarith : v ≤ -1)]
  · rw [if_neg h1]
    by_cases h2 : d < v
    · rw [if_pos h2, if_neg (by linarith : ¬v ≤ -1), min_eq_right (le_of_lt h2)]
      split_ifs <;> rfl
    · rw [if_neg h2]
      by_cases h3 : v = -1
      · rw [if_pos h3, if_pos (le_of_eq h3)]
      · rw [if_neg h3, if_neg ?_, min_eq_left (not_lt.mp h2)]
        intro hle
        exact h3 (le_antisymm hle (not_lt.mp h1))

/-- C5 witness: the amended rule evaluated at the counterexample's input,
w = -5 against a source dimension of 3. -/
theorem C5_resource_dim_amended_witness : effDim (-5) 3 = 3 := by
  have h := C5_resource_dim_amended (-5) 3 (by norm_num)
  rw [h]
  norm_num

/-- C6: bmp_plot_resource copies from the entry-time child snapshot: on
4 x 4 buffers, copying 2 x 2 at offset (1, 1) rewrites exactly the four
pixels (1,1), (2,1), (1,2), (2,2), each receiving the child's entry value
at the corresponding source coordinate (the shifted coordinate minus the
offset), and leaves every other pixel of the parent unchanged. Taking
P = C gives the aliased call, where the values written are still the
entry-time ones. -/
theorem C6_resource_copy_snapshot (P C : Resource) (hpw : P.width = 4) (hph : P.height = 4)
    (hcw : C.width = 4) (hch : C.height = 4) (px py : ℚ) :
    (bmp_plot_resource P C 1 1 2 2).1.pixel px py
      = if (px = 1 ∨ px = 2) ∧ (py = 1 ∨ py = 2)
        then C.pixel (px - 1) (py - 1) else P.pixel px py := by
  have he1 : effDim 2 C.width = 2 := by rw [hcw]; norm_num [effDim, clamp]
  have he2 : effDim 2 C.height = 2 := by rw [hch]; norm_num [effDim, clamp]
  have hj2 : jsIter 2 = 2 := by simp [jsIter]
  have hr2 : List.range 2 = [0, 1] := rfl
  have hcc : copyCoords 2 2 = [((0 : ℚ), (0 : ℚ)), (0, 1), (1, 0), (1, 1)] := by
    norm_num [copyCoords, hj2, hr2]
  have hT : ([((1 : ℚ), (1 : ℚ)), (1, 2), (2, 1), (2, 2)] : List (ℚ × ℚ))
      = (copyCoords 2 2).map (fun q => (q.1 + 1, q.2 + 1)) := by
    rw [hcc]; norm_num
  have hfuneq : (fun (rr : Resource) (q : ℚ × ℚ) =>
        if rr.width > q.1 + 1 ∧ rr.height > q.2 + 1 then
          bmp_resource_set_pixel rr (q.1 + 1) (q.2 + 1)
            (C.pixel q.1 q.2).1 (C.pixel q.1 q.2).2.1 (C.pixel q.1 q.2).2.2
        else rr)
      = (fun (rr : Resource) (q : ℚ × ℚ) =>
        (fun (rr : Resource) (t : ℚ × ℚ) =>
          if rr.width > t.1 ∧ rr.height > t.2 then
            bmp_resource_set_pixel rr t.1 t.2
              ((fun u v => C.pixel (u - 1) (v - 1)) t.1 t.2).1
              ((fun u v => C.pixel (u - 1) (v - 1)) t.1 t.2).2.1
              ((fun u v => C.pixel (u - 1) (v - 1)) t.1 t.2).2.2
          else rr) rr ((fun q : ℚ × ℚ => (q.1 + 1, q.2 + 1)) q)) := by
    funext rr q
    norm_num
  have hfold : (bmp_plot_resource P C 1 1 2 2).1.pixel px py
      = (([((1 : ℚ), (1 : ℚ)), (1, 2), (2, 1), (2, 2)] : List (ℚ × ℚ)).foldl
          (fun (rr : Resource) (t : ℚ × ℚ) =>
            if rr.width > t.1 ∧ rr.height > t.2 then
              bmp_resource_set_pixel rr t.1 t.2
                ((fun u v => C.pixel (u - 1) (v - 1)) t.1 t.2).1
                ((fun u v => C.pixel (u - 1) (v - 1)) t.1 t.2).2.1
                ((fun u v => C.pixel (u - 1) (v - 1)) t.1 t.2).2.2
            else rr) P).pixel px py := by
    simp only [bmp_plot_resource, he1, he2, bmp_resource_get_pixel]
    rw [hT, List.foldl_map, hfuneq]
  rw [hfold, writeFold_pixel (fun u v => C.pixel (u - 1) (v - 1))]
  rw [hpw, hph]
  refine if_congr ?_ rfl rfl
  simp only [List.mem_cons, List.not_mem_nil, or_false, Prod.mk.injEq]
  constructor
  · rintro ⟨(⟨hx, hy⟩ | ⟨hx, hy⟩ | ⟨hx, hy⟩ | ⟨hx, hy⟩), -⟩ <;>
      (subst hx; subst hy; norm_num)
  · rintro ⟨(hx | hx), (hy | hy)⟩ <;> subst hx <;> subst hy <;> norm_num

/-- C6 witness: the aliased self-copy on the 4 x 4 coordinate-grid buffer:
destination pixel (2, 2) receives the entry-time value of source pixel
(1, 1), namely (1, 1, 0). -/
theorem C6_resource_copy_snapshot_witness :
    (bmp_plot_resource grid4 grid4 1 1 2 2).1.pixel 2 2 = (1, 1, 0) := by
  have h := C6_resource_copy_snapshot grid4 grid4 rfl rfl rfl rfl 2 2
  rw [h]
  norm_num [grid4]

/-- C7: a newline code (10 or 13) in bmp_plot_text resets the cursor's x
to the anchor's x and advances its y by font_height, consumes no glyph
cell and performs no write (the loop state is handed to the rest of the
string with the same buffer and no emitted glyph); consequently the string
with codes [65, 10, 66] (that is, A, newline, B) with word wrap disabled
lays out exactly two glyphs whose y origins differ by font_height, the
second starting back at the anchor's x. -/
theorem C7_text_newline (P C : Resource) (ax ay xsta fr fg fb br bg bb fw fh fchars xo yo : ℚ)
    (wrapb : Bool) (rest : List ℕ) (res : Resource) :
    (bmp_plot_text_go C xsta fr fg fb br bg bb wrapb fw fh fchars (10 :: rest) xo yo res
      = bmp_plot_text_go C xsta fr fg fb br bg bb wrapb fw fh fchars rest xsta (yo + fh) res)
    ∧ (bmp_plot_text_go C xsta fr fg fb br bg bb wrapb fw fh fchars (13 :: rest) xo yo res
      = bmp_plot_text_go C xsta fr fg fb br bg bb wrapb fw fh fchars rest xsta (yo + fh) res)
    ∧ ((bmp_plot_text P C ax ay [65, 10, 66] false fr fg fb br bg bb).1.2
      = [(65, ax, ay), (66, ax, ay + C.height)]) := by
  refine ⟨?_, ?_, ?_⟩
  · norm_num [bmp_plot_text_go]
  · norm_num [bmp_plot_text_go]
  · norm_num [bmp_plot_text, bmp_plot_text_go]

/-- C8: with word wrap enabled, a non-negative anchor x, a positive glyph
cell, and a destination narrower than two glyph cells, the glyph rows laid
out by bmp_plot_text are strictly increasing in y, so no two glyphs share
a row: at most one glyph is drawn per row, for any string. -/
theorem C8_text_word_wrap (P C : Resource) (ax ay fr fg fb br bg bb : ℚ) (codes : List ℕ)
    (hax : 0 ≤ ax) (hfw : 0 < C.width / 96) (hfh : 0 < C.height)
    (hnarrow : P.width < 2 * (C.width / 96)) :
    ((bmp_plot_text P C ax ay codes true fr fg fb br bg bb).1.2.map
      (fun gr => gr.2.2)).Pairwise (· < ·) :=
  (text_rows_aux C ax fr fg fb br bg bb (C.width / 96) C.height
    (C.width / (C.width / 96)) hax hfw hfh codes ax ay P hnarrow (Or.inl rfl)).1

/-- C8 witness: a 5-wide destination against a 288-wide atlas (glyph width
3, so the destination is narrower than two glyph cells): the three glyphs
of [65, 66, 67] land on strictly increasing rows. -/
theorem C8_text_word_wrap_witness :
    ((bmp_plot_text narrow5 atlas288 0 0 [65, 66, 67] true 255 255 255 (-1) (-1) (-1)).1.2.map
      (fun gr => gr.2.2)).Pairwise (· < ·) :=
  C8_text_word_wrap narrow5 atlas288 0 0 255 255 255 (-1) (-1) (-1) [65, 66, 67] (by norm_num)
    (by norm_num [atlas288]) (by norm_num [atlas288]) (by norm_num [narrow5, atlas288])

/-- C9: every plot operation returns true on every input: the rectangle,
clear, line, resource copy, text, circle, triangle and the four arrow
outliners all report success unconditionally. -/
theorem C9_plot_ops_return_true (res c : Resource)
    (x y w h x2 y2 r g b p fr fg fb br bg bb : ℚ) (wrapb : Bool) (codes : List ℕ) :
    (bmp_plot_rect res x y w h r g b).2 = true ∧
    (bmp_plot_clear res r g b).2 = true ∧
    (bmp_plot_line res x y x2 y2 r g b p).2 = true ∧
    (bmp_plot_resource res c x y w h).2 = true ∧
    (bmp_plot_text res c x y codes wrapb fr fg fb br bg bb).2 = true ∧
    (bmp_plot_circle res x y w h r g b p).2 = true ∧
    (bmp_plot_triangle res x y w h r g b p).2 = true ∧
    (bmp_plot_arrow_up res x y w h r g b p).2 = true ∧
    (bmp_plot_arrow_down res x y w h r g b p).2 = true ∧
    (bmp_plot_arrow_left res x y w h r g b p).2 = true ∧
    (bmp_plot_arrow_right res x y w h r g b p).2 = true :=
  ⟨rfl, rfl, rfl, rfl, rfl, rfl, rfl, rfl, rfl, rfl, rfl⟩

/-- C10: compositing a buffer onto itself at offset (0, 0) with default
dimensions is the identity on every pixel: each write copies the entry
time snapshot value back to the same coordinate. -/
theorem C10_self_copy_identity (a : Resource) (px py : ℚ) :
    (bmp_plot_resource a a 0 0 (-1) (-1)).1.pixel px py = a.pixel px py := by
  simp only [bmp_plot_resource, effDim_neg_one, bmp_resource_get_pixel, add_zero]
  exact selfwrite_fold a (copyCoords a.width a.height) a (fun _ _ => rfl) px py
